import Mathlib

/-!
Verification development for the atop hardware-telemetry engine.

The Rust sources are shallowly embedded: pure computations become Lean
functions over `Nat`/`Int`/`ℚ` (the Rust `f32`/`f64` arithmetic is modelled
by exact rational arithmetic; every concrete value asserted below is exactly
representable along the evaluated code path), byte buffers become `List Nat`
(each entry one byte), fallible code returns `Option`/`Except`, and the
native IOReport/IOKit layer is modelled by an explicit environment plus an
allocation-trace state.
-/

namespace Atop

/-! ## Binary table parser
Embeds `parse_dvfs_mhz` (src/metrics/iokit.rs:205-233): the blob is split
into 8-byte chunks (`chunks_exact(8)` drops a trailing partial chunk), the
leading 4 bytes of each chunk are read as a little-endian u32, zero
frequencies are filtered out, and `None` is returned when nothing remains. -/

/-- Little-endian unsigned 32-bit value from four bytes. -/
def u32le (b0 b1 b2 b3 : Nat) : Nat :=
  b0 + 256 * b1 + 256 * 256 * b2 + 256 * 256 * 256 * b3

/-- Models `chunks_exact(8)`: successive 8-byte chunks, a trailing partial chunk is dropped. -/
def chunks8 : List Nat → List (List Nat)
  | b0 :: b1 :: b2 :: b3 :: b4 :: b5 :: b6 :: b7 :: rest =>
      [b0, b1, b2, b3, b4, b5, b6, b7] :: chunks8 rest
  | _ => []

/-- Leading little-endian u32 of an 8-byte chunk (the frequency field). -/
def leadFreq (chunk : List Nat) : Nat :=
  u32le (chunk.getD 0 0) (chunk.getD 1 0) (chunk.getD 2 0) (chunk.getD 3 0)

/-- Embeds `parse_dvfs_mhz` (src/metrics/iokit.rs:205-233), on the fetched byte
buffer: collect the non-zero leading u32 of every complete 8-byte chunk;
`None` iff nothing remains. -/
def parse_dvfs_mhz (bytes : List Nat) : Option (List Nat) :=
  let freqs := ((chunks8 bytes).map leadFreq).filter (fun f => 0 < f)
  if freqs.isEmpty then none else some freqs

/-- Models Rust `Vec::dedup`: remove consecutive duplicates. -/
def dedupAdj : List Nat → List Nat
  | [] => []
  | [a] => [a]
  | a :: b :: rest => if a = b then dedupAdj (b :: rest) else a :: dedupAdj (b :: rest)

/-- Embeds `parse_voltage_states` (src/cpu.rs:335-365), on the hex-decoded byte
blob: reject a length that is not a multiple of 8, scale each leading u32
to MHz, keep non-zero entries, sort ascending, remove duplicates, and
return `None` when nothing remains. (`sort_unstable` is modelled by
insertion sort: for `Nat` with `≤` every sort produces the same list.) -/
def parse_voltage_states (bytes : List Nat) (scale : Nat) : Option (List Nat) :=
  if bytes.length % 8 ≠ 0 then none
  else
    let frequencies :=
      (((chunks8 bytes).map leadFreq).map (fun f => f / scale)).filter (fun m => 0 < m)
    let frequencies := dedupAdj (frequencies.insertionSort (· ≤ ·))
    if frequencies.isEmpty then none else some frequencies

/-- Scale selection of `get_cpu_frequencies` (src/metrics/iokit.rs:276-291):
default Hz→MHz; only the first sampled frequency is inspected. -/
def cpu_scale_of (parsed : Option (List Nat)) : Nat :=
  match parsed with
  | some sample_freqs =>
      match sample_freqs.head? with
      | some first_freq =>
          if first_freq > 100000000 then 1000 * 1000
          else if first_freq < 10000 then 1000
          else 1000 * 1000
      | none => 1000 * 1000
  | none => 1000 * 1000

/-- The parse-then-scale-normalize pipeline of `get_cpu_frequencies`
(src/metrics/iokit.rs:264-314) for one cluster, in the configuration where
the scale-sample property and the ladder property are the same blob
(exactly the `voltage-states1-sram` efficiency-cluster path). -/
def get_cpu_frequencies_pipeline (blob : List Nat) : Option (List Nat) :=
  let parsed := parse_dvfs_mhz blob
  let cpu_scale := cpu_scale_of parsed
  parsed.map (fun freqs => freqs.map (fun f => f / cpu_scale))

/-! ## Residency-weighted frequency (`calc_freq`)
Embeds `calc_freq` (src/metrics/ioreport_perf.rs:75-106; the superseded
snapshot src/ioreport_perf.rs:130-161 is line-for-line identical).  Each
channel is a list of (state-name, cumulative-ticks) pairs; ticks are `i64`,
modelled as `Int`; the `f64` arithmetic is modelled exactly over `ℚ`. -/

/-- Models Rust `iter().position(p)`. -/
def position (p : α → Bool) : List α → Option Nat
  | [] => none
  | a :: as => if p a then some 0 else (position p as).map (· + 1)

/-- The active-state predicate of `calc_freq`: not an idle/parked marker. -/
def activeState (x : String × Int) : Bool :=
  x.1 != "IDLE" && x.1 != "DOWN" && x.1 != "OFF"

/-- Sum of the residency ticks from `offset` onward (`usage` in `calc_freq`). -/
def usageFrom (items : List (String × Int)) (offset : Nat) : ℚ :=
  ((items.drop offset).map (fun x => (x.2 : ℚ))).sum

/-- The residency-weighted average frequency accumulated by the loop
`for i in 0..freqs.len().min(items.len() - offset)` of `calc_freq`: the
`zip` realizes exactly that index range, pairing `items[i + offset]` with
`freqs[i]`. -/
def avgFreqAt (items : List (String × Int)) (freqs : List Nat) (offset : Nat) : ℚ :=
  (((items.drop offset).zip freqs).map
    (fun p => (p.1.2 : ℚ) / usageFrom items offset * (p.2 : ℚ))).sum

/-- Embeds `calc_freq` (src/metrics/ioreport_perf.rs:75-106): returns
(average frequency truncated to `u32`, utilization).  The `f64 as u32`
truncation of the non-negative average is `⌊·⌋.toNat` (both clamp negative
values to 0). -/
def calc_freq (items : List (String × Int)) (freqs : List Nat) : Nat × ℚ :=
  let offset := (position activeState items).getD 0
  let usage := usageFrom items offset
  let total := (items.map (fun x => (x.2 : ℚ))).sum
  if usage = 0 ∨ total = 0 ∨ freqs.isEmpty then (0, 0)
  else
    let avg_freq := avgFreqAt items freqs offset
    let usage_ratio := usage / total
    let min_freq : ℚ := (freqs.headD 0 : Nat)
    let max_freq : ℚ := (freqs.getLastD 0 : Nat)
    let from_max := max avg_freq min_freq * usage_ratio / max_freq
    (⌊avg_freq⌋.toNat, from_max)

/-! ## Management-controller value decoding (`Smc::read_value`)
Embeds the dynamic decode of src/smc.rs:408-546.  `read_value` fetches the
key's metadata and payload over the native connection and then decodes the
payload from the 4-character type tag; the decode step is pure and is
embedded here as `read_value_decode` over the fetched payload bytes.
IEEE-754 `f32` decoding and the fixed-point divisions are modelled over ℚ
(exact for every finite float). -/

inductive SMCValue where
  | float (q : ℚ)
  | u8 (n : Nat)
  | u16 (n : Nat)
  | u32 (n : Nat)
  | i8 (i : Int)
  | i16 (i : Int)
  | flag (b : Bool)
  | str (bytes : List Nat)
  | bytes (data : List Nat)
deriving DecidableEq

/-- Exact rational value of a little-endian IEEE-754 `f32` (finite range;
the exponent-255 NaN/infinity encodings, which no claim exercises, are
modelled by the same formula). -/
def f32le (b0 b1 b2 b3 : Nat) : ℚ :=
  let bits : Nat := u32le b0 b1 b2 b3
  let sign : Nat := bits / 2 ^ 31
  let ex : Nat := bits / 2 ^ 23 % 2 ^ 8
  let frac : Nat := bits % 2 ^ 23
  let mag : ℚ :=
    if ex = 0 then (frac : ℚ) / 2 ^ 23 * (2 : ℚ) ^ (-(126 : ℤ))
    else (1 + (frac : ℚ) / 2 ^ 23) * (2 : ℚ) ^ ((ex : ℤ) - 127)
  if sign = 1 then -mag else mag

/-- Big-endian unsigned 16-bit value. -/
def u16be (b0 b1 : Nat) : Nat := 256 * b0 + b1

/-- Big-endian signed 16-bit value (`i16::from_be_bytes`). -/
def i16be (b0 b1 : Nat) : Int :=
  let raw := u16be b0 b1
  if raw < 2 ^ 15 then (raw : Int) else (raw : Int) - 2 ^ 16

/-- A byte reinterpreted as `i8`. -/
def i8of (b : Nat) : Int := if b < 2 ^ 7 then (b : Int) else (b : Int) - 2 ^ 8

/-- Exponent table of the unsigned fixed-point tags (src/smc.rs:431-444). -/
def fpScale (t : String) : ℚ :=
  if t = "fp1f" then 32768 else if t = "fp2e" then 16384
  else if t = "fp3d" then 8192 else if t = "fp4c" then 4096
  else if t = "fp5b" then 2048 else if t = "fp6a" then 1024
  else if t = "fp79" then 512 else if t = "fp88" then 256
  else if t = "fpa6" then 64 else if t = "fpc4" then 16
  else if t = "fpe2" then 4 else 256

/-- Exponent table of the signed fixed-point tags (src/smc.rs:455-468). -/
def spScale (t : String) : ℚ :=
  if t = "sp1e" then 16384 else if t = "sp2d" then 8192
  else if t = "sp3c" then 4096 else if t = "sp4b" then 2048
  else if t = "sp5a" then 1024 else if t = "sp69" then 512
  else if t = "sp78" then 256 else if t = "sp87" then 128
  else if t = "sp96" then 64 else if t = "spb4" then 16
  else if t = "spf0" then 1 else 256

/-- The type tags `Smc::read_value` decodes specially; every other tag falls
through to the raw-bytes arm (src/smc.rs:539-542). -/
def enumeratedTags : List String :=
  ["flt ",
   "fp1f", "fp2e", "fp3d", "fp4c", "fp5b", "fp6a", "fp79", "fp88", "fpa6", "fpc4", "fpe2",
   "sp1e", "sp2d", "sp3c", "sp4b", "sp5a", "sp69", "sp78", "sp87", "sp96", "spb4", "spf0",
   "ui8 ", "ui16", "ui32", "si8 ", "si16", "flag", "ch8*", "\x7bfds"]

/-- The decode step of `Smc::read_value` (src/smc.rs:417-543), a sequential
match on the type tag exactly as in the source (a Rust `match` on `&str`
tests the arms in order).  `data` is the payload returned by
`read_key_data`.  The `ch8*` arm keeps the truncated raw bytes (the
UTF-8-lossy conversion is not modelled; no claim depends on it). -/
def read_value_decode (type_str : String) (data : List Nat) : Except String SMCValue :=
  if type_str = "flt " then
    if 4 ≤ data.length then
      .ok (.float (f32le (data.getD 0 0) (data.getD 1 0) (data.getD 2 0) (data.getD 3 0)))
    else .error "Invalid float data"
  else if type_str = "fp1f" ∨ type_str = "fp2e" ∨ type_str = "fp3d" ∨ type_str = "fp4c" ∨
      type_str = "fp5b" ∨ type_str = "fp6a" ∨ type_str = "fp79" ∨ type_str = "fp88" ∨
      type_str = "fpa6" ∨ type_str = "fpc4" ∨ type_str = "fpe2" then
    if 2 ≤ data.length then
      .ok (.float ((u16be (data.getD 0 0) (data.getD 1 0) : ℚ) / fpScale type_str))
    else .error "Invalid fixed point data"
  else if type_str = "sp1e" ∨ type_str = "sp2d" ∨ type_str = "sp3c" ∨ type_str = "sp4b" ∨
      type_str = "sp5a" ∨ type_str = "sp69" ∨ type_str = "sp78" ∨ type_str = "sp87" ∨
      type_str = "sp96" ∨ type_str = "spb4" ∨ type_str = "spf0" then
    if 2 ≤ data.length then
      .ok (.float ((i16be (data.getD 0 0) (data.getD 1 0) : ℚ) / spScale type_str))
    else .error "Invalid signed fixed point data"
  else if type_str = "ui8 " then
    if ¬data.isEmpty then .ok (.u8 (data.getD 0 0)) else .error "Invalid ui8 data"
  else if type_str = "ui16" then
    if 2 ≤ data.length then .ok (.u16 (u16be (data.getD 0 0) (data.getD 1 0)))
    else .error "Invalid ui16 data"
  else if type_str = "ui32" then
    if 4 ≤ data.length then
      .ok (.u32 (256 ^ 3 * data.getD 0 0 + 256 ^ 2 * data.getD 1 0 +
                 256 * data.getD 2 0 + data.getD 3 0))
    else .error "Invalid ui32 data"
  else if type_str = "si8 " then
    if ¬data.isEmpty then .ok (.i8 (i8of (data.getD 0 0))) else .error "Invalid si8 data"
  else if type_str = "si16" then
    if 2 ≤ data.length then .ok (.i16 (i16be (data.getD 0 0) (data.getD 1 0)))
    else .error "Invalid si16 data"
  else if type_str = "flag" then
    if ¬data.isEmpty then .ok (.flag (data.getD 0 0 != 0)) else .error "Invalid flag data"
  else if type_str = "ch8*" then
    .ok (.str (data.take ((position (fun b => b = 0) data).getD (min 8 data.length))))
  else if type_str = "\x7bfds" then
    if 16 ≤ data.length then .ok (.bytes data) else .error "Invalid fan descriptor"
  else
    .ok (.bytes data)

/-! ## Temperature sensor discovery and aggregation
Embeds `Smc::discover_temperature_sensors` (src/smc.rs:565-604) and
`Smc::get_cpu_temperature` / `get_gpu_temperature` (src/smc.rs:606-645).
The native side is abstracted by an environment: `keys` is the list
returned by `read_all_keys` (or its fallback) and `value` gives the
decoded numeric reading of `read_temperature k` (`none` when the read or
the float conversion fails; the environment is a function, so repeated
reads of a key are stable, matching a quiescent sensor).  Keys are
`List Char` and `str::starts_with` is prefix testing on characters. -/

/-- Models `str::starts_with`. -/
def rustStartsWith (s pre : List Char) : Bool := pre.isPrefixOf s

structure SmcEnv where
  keys : List (List Char)
  value : List Char → Option ℚ

/-- Embeds `discover_temperature_sensors` (src/smc.rs:565-604): returns
(cpu_sensors, gpu_sensors). -/
def discover_temperature_sensors (env : SmcEnv) : List (List Char) × List (List Char) :=
  let cpu_sensors := env.keys.filter (fun key =>
    rustStartsWith key ['T'] &&
    match env.value key with
    | some temp => (-50 < temp && temp < 150) &&
        (rustStartsWith key ['T', 'p'] || rustStartsWith key ['T', 'e'])
    | none => false)
  let gpu_sensors := env.keys.filter (fun key =>
    rustStartsWith key ['T'] &&
    match env.value key with
    | some temp => (-50 < temp && temp < 150) &&
        !(rustStartsWith key ['T', 'p'] || rustStartsWith key ['T', 'e']) &&
        rustStartsWith key ['T', 'g']
    | none => false)
  (cpu_sensors, gpu_sensors)

/-- The accepted readings of `get_cpu_temperature` (src/smc.rs:606-616):
re-read every discovered CPU sensor and keep values in (0, 150). -/
def cpuTemps (env : SmcEnv) : List ℚ :=
  (discover_temperature_sensors env).1.filterMap (fun key =>
    match env.value key with
    | some temp => if 0 < temp ∧ temp < 150 then some temp else none
    | none => none)

/-- Embeds `get_cpu_temperature` (src/smc.rs:606-624): error when no reading was
accepted, otherwise the arithmetic mean. -/
def get_cpu_temperature (env : SmcEnv) : Except String ℚ :=
  let temps := cpuTemps env
  if temps.isEmpty then .error "Could not read CPU temperature"
  else .ok (temps.sum / temps.length)

/-! ## Energy-to-power conversion (`IOReport::sample_power`)
Embeds `energy_to_watts` (src/metrics/iokit.rs:125-142), `sample_power`
(src/metrics/iokit.rs:477-501) and `get_power_metrics_from_sample`
(src/metrics/iokit.rs:526-570).  The delta sample returned by the native
layer is abstracted by an environment holding the channel list and the
wall-clock duration measured by the `Instant` around the sleep
(`elapsed_ms`); `sample_power` hands exactly that measured duration to the
returned iterator, while the requested `duration_ms` argument only drives
the sleep. -/

structure EnergyChannel where
  group : String
  channel : String
  unit : String
  rawValue : Int

structure IOReportEnv where
  channels : List EnergyChannel
  elapsed_ms : Nat

/-- Embeds `energy_to_watts` (src/metrics/iokit.rs:125-142). -/
def energy_to_watts (rawValue : Int) (unit : String) (duration_ms : Nat) : Except String ℚ :=
  let time_factor : ℚ := (duration_ms : ℚ) / 1000
  let value_per_second := (rawValue : ℚ) / time_factor
  if unit = "mJ" then .ok (value_per_second / 1000)
  else if unit = "uJ" ∨ unit = "Î¼J" then .ok (value_per_second / 1000000)
  else if unit = "nJ" then .ok (value_per_second / 1000000000)
  else .error ("Unknown energy unit: " ++ unit)

/-- Embeds `IOReport::sample_power` (src/metrics/iokit.rs:477-501): the returned
iterator carries the delta channels and the measured elapsed duration. -/
def sample_power (env : IOReportEnv) (duration_ms : Nat) : List EnergyChannel × Nat :=
  let _requested := duration_ms
  (env.channels, env.elapsed_ms)

structure PowerMetrics where
  cpu_power : ℚ
  gpu_power : ℚ
  ane_power : ℚ
  ram_power : ℚ
  gpu_ram_power : ℚ
  all_power : ℚ
  sys_power : ℚ
deriving DecidableEq

/-- Models Rust `str::ends_with`. -/
def rustEndsWith (s suffix : String) : Bool := suffix.data.isSuffixOf s.data

/-- Models Rust `str::starts_with` on `String`s (used for channel-name buckets). -/
def strStartsWith (s pre : String) : Bool := pre.data.isPrefixOf s.data

/-- The channel-classification fold of `get_power_metrics_from_sample`
(src/metrics/iokit.rs:536-561): energy channels are converted with the
given duration and accumulated into buckets by name pattern; conversion
failures are skipped. -/
def accumPower (channels : List EnergyChannel) (duration_ms : Nat) : PowerMetrics :=
  let step := fun (m : PowerMetrics) (c : EnergyChannel) =>
    if c.group = "Energy Model" then
      match energy_to_watts c.rawValue c.unit duration_ms with
      | .ok watts =>
          if c.channel = "GPU Energy" then { m with gpu_power := m.gpu_power + watts }
          else if rustEndsWith c.channel "CPU Energy" then
            { m with cpu_power := m.cpu_power + watts }
          else if strStartsWith c.channel "ANE" then
            { m with ane_power := m.ane_power + watts }
          else if strStartsWith c.channel "DRAM" then
            { m with ram_power := m.ram_power + watts }
          else if strStartsWith c.channel "GPU SRAM" then
            { m with gpu_ram_power := m.gpu_ram_power + watts }
          else m
      | .error _ => m
    else m
  channels.foldl step ⟨0, 0, 0, 0, 0, 0, 0⟩

/-- Embeds `get_power_metrics_from_sample` (src/metrics/iokit.rs:526-570): samples
with the requested interval, then converts every energy channel using the
iterator's measured duration (`actual_duration_ms`). -/
def get_power_metrics_from_sample (env : IOReportEnv) (interval_ms : Nat) : PowerMetrics :=
  let sample := sample_power env interval_ms
  let actual_duration_ms := sample.2
  let metrics := accumPower sample.1 actual_duration_ms
  let all := metrics.cpu_power + metrics.gpu_power + metrics.ane_power
  { metrics with all_power := all, sys_power := all }

/-! ## Native resource lifecycle (Counter Sampler)
A trace model of the native allocations performed by `IOReportPerf`
(src/metrics/ioreport_perf.rs).  Every handle-producing native call
allocates a fresh id into `live`; `CFRelease` removes a live id and counts
a double release otherwise.  `NativeEnv` fixes the outcome of the fallible
native calls: `channelsValid` is whether `cf_dict_get_array(chan,
"IOReportChannels")` succeeds (src/metrics/ioreport_perf.rs:193) and
`subscriptionOk` whether `IOReportCreateSubscription` returns non-null
(src/metrics/ioreport_perf.rs:204-208).  The dictionary written through
`IOReportCreateSubscription`'s out-parameter is not modelled as a
caller-owned allocation, and the unreachable "No channels found" branch
(the channel list is a two-element literal) is omitted. -/

structure NativeState where
  nextId : Nat
  live : List Nat
  doubleReleases : Nat
  createSubscriptionCalls : Nat
deriving DecidableEq

def NativeState.init : NativeState := ⟨0, [], 0, 0⟩

/-- A native call returning a new handle. -/
def alloc (s : NativeState) : Nat × NativeState :=
  (s.nextId, { s with nextId := s.nextId + 1, live := s.live ++ [s.nextId] })

/-- Models `CFRelease`. -/
def release (id : Nat) (s : NativeState) : NativeState :=
  if id ∈ s.live then { s with live := s.live.erase id }
  else { s with doubleReleases := s.doubleReleases + 1 }

structure NativeEnv where
  channelsValid : Bool
  subscriptionOk : Bool

structure IOReportPerf where
  subscription : Nat
  channel_dictionary : Nat
deriving DecidableEq

/-- Embeds `create_channels` (src/metrics/ioreport_perf.rs:159-198): copy the two
group channel dictionaries, merge them, take a mutable copy, release the
originals, then verify the merged dictionary — the error return leaves the
copy allocated. -/
def create_channels (env : NativeEnv) (s : NativeState) :
    Except String Nat × NativeState :=
  let (g1, s) := alloc s
  let (g2, s) := alloc s
  let (chan, s) := alloc s
  let s := release g1 s
  let s := release g2 s
  if ¬env.channelsValid then (.error "Failed to get channels", s)
  else (.ok chan, s)

/-- Embeds `create_subscription` (src/metrics/ioreport_perf.rs:200-214): one call
to `IOReportCreateSubscription`, error when it returns null. -/
def create_subscription (env : NativeEnv) (s : NativeState) :
    Except String Nat × NativeState :=
  let s := { s with createSubscriptionCalls := s.createSubscriptionCalls + 1 }
  if env.subscriptionOk then
    let (subs, s) := alloc s
    (.ok subs, s)
  else (.error "Failed to create subscription", s)

/-- Embeds `IOReportPerf::new` (src/metrics/ioreport_perf.rs:114-128): build the
channel set, then the subscription; each `?` propagates the error as the
source does — without releasing what was already allocated. -/
def IOReportPerf.new (env : NativeEnv) (s : NativeState) :
    Except String IOReportPerf × NativeState :=
  match create_channels env s with
  | (.error e, s) => (.error e, s)
  | (.ok channel_dictionary, s) =>
    match create_subscription env s with
    | (.error e, s) => (.error e, s)
    | (.ok subscription, s) => (.ok ⟨subscription, channel_dictionary⟩, s)

/-- Embeds `IOReportPerf::get_sample` (src/metrics/ioreport_perf.rs:131-147):
two snapshots, the delta, three releases.  The returned
`PerformanceSample` is the pure `parse_sample`/`calc_freq` computation
modelled above and carries no handles, so only the state is returned. -/
def IOReportPerf.get_sample (_self : IOReportPerf) (s : NativeState) : NativeState :=
  let (sample1, s) := alloc s
  let (sample2, s) := alloc s
  let (delta, s) := alloc s
  let s := release sample1 s
  let s := release sample2 s
  release delta s

/-- Embeds `impl Drop for IOReportPerf` (src/metrics/ioreport_perf.rs:150-157). -/
def IOReportPerf.drop (self : IOReportPerf) (s : NativeState) : NativeState :=
  let s := release self.channel_dictionary s
  release self.subscription s

/-! ## Helper lemmas -/

theorem sum_map_div {α : Type} (l : List α) (g : α → ℚ) (c : ℚ) :
    (l.map (fun a => g a / c)).sum = (l.map g).sum / c := by
  induction l with
  | nil => simp
  | cons a as ih => simp [ih, add_div]

theorem zip_append_left {α β : Type} (l₁ l₃ : List α) (l₂ : List β)
    (h : l₂.length ≤ l₁.length) : (l₁ ++ l₃).zip l₂ = l₁.zip l₂ := by
  induction l₂ generalizing l₁ with
  | nil => simp
  | cons b bs ih =>
    cases l₁ with
    | nil => simp at h
    | cons a as =>
      simp only [List.cons_append, List.zip_cons_cons]
      rw [ih as (by simpa using h)]

theorem zip_append_right {α β : Type} (l₁ : List α) (l₂ l₃ : List β)
    (h : l₁.length ≤ l₂.length) : l₁.zip (l₂ ++ l₃) = l₁.zip l₂ := by
  induction l₁ generalizing l₂ with
  | nil => simp
  | cons a as ih =>
    cases l₂ with
    | nil => simp at h
    | cons b bs =>
      simp only [List.cons_append, List.zip_cons_cons]
      rw [ih bs (by simpa using h)]

theorem position_lt_length {α : Type} (p : α → Bool) :
    ∀ (l : List α) (o : Nat), position p l = some o → o < l.length := by
  intro l
  induction l with
  | nil => intro o h; simp [position] at h
  | cons a as ih =>
    intro o h
    rw [position] at h
    by_cases hp : p a
    · obtain rfl : (0 : Nat) = o := by simpa [hp] using h
      simp
    · simp [hp] at h
      obtain ⟨o', ho', rfl⟩ := h
      have := ih o' ho'
      simp
      omega

theorem position_append {α : Type} (p : α → Bool) :
    ∀ (l l' : List α) (o : Nat), position p l = some o →
      position p (l ++ l') = some o := by
  intro l
  induction l with
  | nil => intro l' o h; simp [position] at h
  | cons a as ih =>
    intro l' o h
    rw [position] at h
    by_cases hp : p a
    · simp [hp] at h
      simp [position, hp, ← h]
    · simp [hp] at h
      obtain ⟨o', ho', rfl⟩ := h
      simp [position, hp, ih l' o' ho']

theorem dedupAdj_sublist : ∀ l : List Nat, (dedupAdj l).Sublist l
  | [] => by simp [dedupAdj]
  | [a] => by simp [dedupAdj]
  | a :: b :: rest => by
    rw [dedupAdj]
    by_cases h : a = b
    · simpa [h] using (dedupAdj_sublist (b :: rest)).trans (List.sublist_cons_self a _)
    · simpa [h] using List.Sublist.cons₂ a (dedupAdj_sublist (b :: rest))

theorem dedupAdj_ne_nil : ∀ (a : Nat) (l : List Nat), dedupAdj (a :: l) ≠ []
  | _, [] => by simp [dedupAdj]
  | a, b :: rest => by
    rw [dedupAdj]
    by_cases h : a = b <;> simp [h, dedupAdj_ne_nil b rest]

theorem dedupAdj_insertionSort_eq_nil_iff (l : List Nat) :
    dedupAdj (l.insertionSort (· ≤ ·)) = [] ↔ l = [] := by
  constructor
  · intro h
    cases hs : l.insertionSort (· ≤ ·) with
    | nil =>
      have hp := List.perm_insertionSort (· ≤ ·) l
      rw [hs] at hp
      exact hp.symm.eq_nil
    | cons a as => exact absurd (hs ▸ h) (dedupAdj_ne_nil a as)
  · intro h
    subst h
    simp [List.insertionSort, dedupAdj]

theorem filterMap_filter {α β : Type} (p : α → Bool) (g : α → Option β) (l : List α) :
    (l.filter p).filterMap g = l.filterMap (fun a => if p a then g a else none) := by
  induction l with
  | nil => simp
  | cons a as ih =>
    by_cases hp : p a <;> simp [List.filter, hp, List.filterMap_cons, ih]

theorem rustStartsWith_head (k : List Char) (c : Char) (rest : List Char)
    (h : rustStartsWith k (c :: rest) = true) : rustStartsWith k [c] = true := by
  cases k with
  | nil => simp [rustStartsWith, List.isPrefixOf] at h
  | cons a as =>
    simp [rustStartsWith, List.isPrefixOf] at h ⊢
    exact h.1

/-! ## Claim C3 — scale normalization -/

/-- C3 counterexample: the scale heuristic inspects only the *first* parsed
frequency, not *any* entry.  The blob encoding records (5000, 0) and
(200000000, 0) contains a frequency exceeding 100000000, so per the claim
every entry would be divided by 1000000 giving `[0, 200]`; the code sees
first = 5000 < 10000, chooses the kHz scale, and yields `[5, 200000]`. -/
theorem cpu_scale_mixed_blob_counterexample :
    parse_dvfs_mhz [136, 19, 0, 0, 0, 0, 0, 0, 0, 194, 235, 11, 0, 0, 0, 0]
      = some [5000, 200000000] ∧
    (100000000 < 200000000) ∧
    get_cpu_frequencies_pipeline [136, 19, 0, 0, 0, 0, 0, 0, 0, 194, 235, 11, 0, 0, 0, 0]
      = some [5, 200000] ∧
    some [5, 200000] ≠ some (([5000, 200000000] : List Nat).map (fun f => f / 1000000)) := by
  refine ⟨rfl, by decide, by decide, by decide⟩

/-- C3 amended: the scale decision inspects only the first parsed sampled
frequency: first > 100000000 → Hz (divide by 1000000); first < 10000 → kHz
(divide by 1000); otherwise the Hz rule applies by default; a blob whose
records encode u32 600000000 yields ladder entry 600 MHz. -/
theorem cpu_scale_first_sample_amended (blob freqs : List Nat) (first : Nat)
    (hp : parse_dvfs_mhz blob = some freqs) (hh : freqs.head? = some first) :
    get_cpu_frequencies_pipeline blob =
      some (freqs.map (fun f => f /
        (if 100000000 < first then 1000000
         else if first < 10000 then 1000 else 1000000))) := by
  simp only [get_cpu_frequencies_pipeline, cpu_scale_of, hp, hh, Option.map_some]
  norm_num

/-- C3 witness: the 600000000 Hz example, first = 600000000 > 100000000. -/
theorem cpu_scale_first_sample_amended_witness :
    get_cpu_frequencies_pipeline [0, 70, 195, 35, 0, 0, 0, 0] =
      some (([600000000] : List Nat).map (fun f => f /
        (if 100000000 < 600000000 then 1000000
         else if (600000000 : Nat) < 10000 then 1000 else 1000000))) :=
  cpu_scale_first_sample_amended [0, 70, 195, 35, 0, 0, 0, 0] [600000000] 600000000
    (by decide) (by decide)

/-! ## Claim C4 — parser failure conditions -/

/-- C4 counterexample: `parse_dvfs_mhz` does not reject a blob whose length
is not a multiple of 8 — `chunks_exact(8)` silently drops the trailing
partial chunk, so a 9-byte blob with one non-zero record parses
successfully instead of returning the "no data" result. -/
theorem parse_dvfs_partial_chunk_counterexample :
    ([1, 0, 0, 0, 0, 0, 0, 0, 99] : List Nat).length % 8 ≠ 0 ∧
    parse_dvfs_mhz [1, 0, 0, 0, 0, 0, 0, 0, 99] = some [1] := by
  refine ⟨by decide, by decide⟩

/-- C4 amended: `parse_dvfs_mhz` ignores a trailing partial chunk and
returns the "no data" result *exactly when* no complete 8-byte record has a
non-zero leading 4-byte little-endian value; the legacy
`parse_voltage_states` returns "no data" *exactly when* the blob length is
not a multiple of 8 or every complete record's scaled frequency (leading
u32 divided by the scale) is zero — so a record whose non-zero lead rounds
to zero under the scale (e.g. lead 5 at scale 1000) also counts as zero
after filtering.  Neither failure is propagated as an error: both are
`Option` results. -/
theorem parser_failure_conditions_amended :
    (∀ bytes : List Nat,
        parse_dvfs_mhz bytes = none ↔ ∀ c ∈ chunks8 bytes, leadFreq c = 0) ∧
    (∀ (bytes : List Nat) (scale : Nat),
        parse_voltage_states bytes scale = none ↔
          bytes.length % 8 ≠ 0 ∨ ∀ c ∈ chunks8 bytes, leadFreq c / scale = 0) := by
  constructor
  · intro bytes
    by_cases h : ((chunks8 bytes).map leadFreq).filter (fun f => 0 < f) = []
    · rw [List.filter_eq_nil_iff] at h
      constructor
      · intro _ c hc
        have hz := h (leadFreq c) (List.mem_map_of_mem _ hc)
        simpa using hz
      · intro _
        simp [parse_dvfs_mhz, List.filter_eq_nil_iff.mpr h]
    · have hne : parse_dvfs_mhz bytes ≠ none := by
        simp only [parse_dvfs_mhz, List.isEmpty_iff]
        rw [if_neg h]
        simp
      constructor
      · intro hn
        exact absurd hn hne
      · intro hall
        exfalso
        apply h
        rw [List.filter_eq_nil_iff]
        intro a ha
        simp only [List.mem_map] at ha
        obtain ⟨c, hc, rfl⟩ := ha
        simp [hall c hc]
  · intro bytes scale
    by_cases h1 : bytes.length % 8 ≠ 0
    · simp [parse_voltage_states, h1]
    · have hlen : bytes.length % 8 = 0 := by omega
      by_cases h : (((chunks8 bytes).map leadFreq).map (fun f => f / scale)).filter
          (fun m => 0 < m) = []
      · have hnone : parse_voltage_states bytes scale = none := by
          simp only [parse_voltage_states, h]
          simp [List.insertionSort, dedupAdj, h1]
        rw [List.filter_eq_nil_iff] at h
        simp only [hnone, h1, false_or, true_iff]
        intro c hc
        have hz := h (leadFreq c / scale)
          (List.mem_map_of_mem _ (List.mem_map_of_mem _ hc))
        simpa using hz
      · have hsome : parse_voltage_states bytes scale ≠ none := by
          simp only [parse_voltage_states, List.isEmpty_iff]
          rw [if_neg h1, if_neg (by
            intro hnil
            exact h ((dedupAdj_insertionSort_eq_nil_iff _).mp hnil))]
          simp
        simp only [hsome, h1, false_or, false_iff]
        intro hall
        apply h
        rw [List.filter_eq_nil_iff]
        intro a ha
        simp only [List.mem_map] at ha
        obtain ⟨f, ⟨c, hc, rfl⟩, rfl⟩ := ha
        simp [hall c hc]

/-- C4 witness: an all-zero 8-byte blob for `parse_dvfs_mhz`; for
`parse_voltage_states` a 9-byte blob (length failure) and an 8-byte blob
whose non-zero lead 5 scales to zero at scale 1000. -/
theorem parser_failure_conditions_amended_witness :
    parse_dvfs_mhz [0, 0, 0, 0, 0, 0, 0, 0] = none ∧
    parse_voltage_states [0, 0, 0, 0, 0, 0, 0, 0, 7] 1000 = none ∧
    parse_voltage_states [5, 0, 0, 0, 0, 0, 0, 0] 1000 = none :=
  ⟨(parser_failure_conditions_amended.1 _).mpr (by decide),
   (parser_failure_conditions_amended.2 _ 1000).mpr (Or.inl (by decide)),
   (parser_failure_conditions_amended.2 _ 1000).mpr (Or.inr (by decide))⟩

/-! ## Claim C5 — ladder positivity and ordering -/

/-- C5 counterexample: the metrics parse-then-scale pipeline can emit a zero
entry and a decreasing ladder.  The blob encodes raw frequencies
(150000000, 500000): the first exceeds 100000000 so the Hz scale 1000000 is
chosen, and the second entry scales to 500000 / 1000000 = 0. -/
theorem ladder_zero_entry_counterexample :
    get_cpu_frequencies_pipeline
        [128, 209, 240, 8, 0, 0, 0, 0, 32, 161, 7, 0, 0, 0, 0, 0] = some [150, 0] ∧
    ¬((∀ x ∈ ([150, 0] : List Nat), 0 < x) ∧
      List.Chain' (· ≤ ·) ([150, 0] : List Nat)) := by
  refine ⟨by decide, by decide⟩

/-- C5 amended: the legacy `parse_voltage_states` (which filters after
scaling, sorts and deduplicates) always returns a ladder of positive
entries in ascending order; the raw `parse_dvfs_mhz` entries are positive
before scaling, but the metrics pipeline's ordering and positivity hold
only when the blob itself provides them after division. -/
theorem ladder_positive_sorted_amended :
    (∀ (bytes : List Nat) (scale : Nat) (ladder : List Nat),
        parse_voltage_states bytes scale = some ladder →
        (∀ x ∈ ladder, 0 < x) ∧ ladder.Sorted (· ≤ ·)) ∧
    (∀ (bytes freqs : List Nat),
        parse_dvfs_mhz bytes = some freqs → ∀ x ∈ freqs, 0 < x) := by
  constructor
  · intro bytes scale ladder h
    simp only [parse_voltage_states] at h
    split_ifs at h with h1 h2
    all_goals replace h := Option.some.inj h
    all_goals subst h
    all_goals
      have hsub := dedupAdj_sublist
        (((((chunks8 bytes).map leadFreq).map (fun f => f / scale)).filter
          (fun m => 0 < m)).insertionSort (· ≤ ·))
      constructor
      · intro x hx
        have hx2 := hsub.subset hx
        have hx3 := (List.perm_insertionSort (· ≤ ·) _).subset hx2
        simpa using (List.mem_filter.mp hx3).2
      · exact (List.sorted_insertionSort (· ≤ ·) _).sublist hsub
  · intro bytes freqs h
    simp only [parse_dvfs_mhz] at h
    split_ifs at h with h1
    all_goals replace h := Option.some.inj h
    all_goals subst h
    all_goals intro x hx
    all_goals simpa using (List.mem_filter.mp hx).2

/-- C5 witness: concrete ladders — the scaled, sorted legacy ladder [1, 125]
from records (8, 0) and (1000, 0) at scale 8, and the raw ladder [1000]. -/
theorem ladder_positive_sorted_amended_witness :
    ((∀ x ∈ ([1, 125] : List Nat), 0 < x) ∧ ([1, 125] : List Nat).Sorted (· ≤ ·)) ∧
    (∀ x ∈ ([1000] : List Nat), 0 < x) :=
  ⟨ladder_positive_sorted_amended.1 [8, 0, 0, 0, 0, 0, 0, 0, 232, 3, 0, 0, 0, 0, 0, 0] 8
      [1, 125] (by decide),
   ladder_positive_sorted_amended.2 [232, 3, 0, 0, 0, 0, 0, 0] [1000] (by decide)⟩

/-! ## Claim C1 — residency-weighted frequency example -/

/-- C1 counterexample: for states [("IDLE",100),("P1",300),("P2",600)] and
ladder [1000,2000] the code indeed returns the truncated average frequency
1666, but the returned utilization is computed from the *untruncated*
average 5000/3 and equals exactly 3/4 = 0.75, not
(1666 × (900/1000)) / 2000 = 0.74970 as the claim's equality states. -/
theorem residency_weighted_example_counterexample :
    calc_freq [("IDLE", 100), ("P1", 300), ("P2", 600)] [1000, 2000] = (1666, 3 / 4) ∧
    (3 / 4 : ℚ) ≠ 1666 * (900 / 1000) / 2000 := by
  constructor
  · simp [calc_freq, avgFreqAt, usageFrom, position, activeState]
    try norm_num
    try decide
  · norm_num

/-- C1 amended: offset skips IDLE, active = 900, total = 1000, the weighted
average is 1000×(300/900)+2000×(600/900) = 5000/3, the returned frequency
is its truncation 1666, and the returned utilization is computed from the
untruncated average: (max(5000/3, 1000) × (900/1000)) / 2000 = 3/4 = 0.75
exactly. -/
theorem residency_weighted_example_amended :
    calc_freq [("IDLE", 100), ("P1", 300), ("P2", 600)] [1000, 2000] = (1666, 3 / 4) ∧
    (1000 * ((300 : ℚ) / 900) + 2000 * ((600 : ℚ) / 900)) = 5000 / 3 ∧
    ⌊(5000 / 3 : ℚ)⌋ = 1666 ∧
    (3 / 4 : ℚ) = max (5000 / 3) 1000 * (900 / 1000) / 2000 := by
  refine ⟨?_, by norm_num, by norm_num, ?_⟩
  · simp [calc_freq, avgFreqAt, usageFrom, position, activeState]
    try norm_num
    try decide
  · rw [max_eq_left (by norm_num)]
    norm_num

/-! ## Claim C10 — ladder/state length mismatch in `calc_freq` -/

/-- C10 counterexample: ladder entries beyond the state count are *not*
ignored by `calc_freq`: with a single fully-active state, extending the
ladder from [1000] to [1000, 2000] leaves the average frequency at 1000 but
halves the reported utilization, because the appended entry becomes the
`max_freq` divisor. -/
theorem ladder_beyond_states_counterexample :
    calc_freq [("P", 1)] [1000] = (1000, 1) ∧
    calc_freq [("P", 1)] [1000, 2000] = (1000, 1 / 2) ∧
    ((1 : ℚ) ≠ 1 / 2) := by
  refine ⟨?_, ?_, by norm_num⟩
  · simp [calc_freq, avgFreqAt, usageFrom, position, activeState]
    try norm_num
    try decide
  · simp [calc_freq, avgFreqAt, usageFrom, position, activeState]
    try norm_num
    try decide

/-- C10 amended: the weighted sum covers only the first
min(len(ladder), len(states) − offset) active states while every active
state's ticks enter the denominator, so (first conjunct) appending an
extra active state beyond an already fully-weighted ladder strictly lowers
the rational average frequency (and never raises its truncation), and
(second conjunct) ladder entries beyond the state count are ignored by the
average-frequency computation — though, per the counterexample, they still
change the utilization through the min/max ladder frequencies. -/
theorem calc_freq_truncation_amended :
    (∀ (items : List (String × Int)) (freqs : List Nat) (n : String) (t : Int) (o : Nat),
        position activeState items = some o →
        freqs.length ≤ items.length - o →
        0 < usageFrom items o →
        0 < t →
        0 < avgFreqAt items freqs o →
        position activeState (items ++ [(n, t)]) = some o ∧
        avgFreqAt (items ++ [(n, t)]) freqs o < avgFreqAt items freqs o ∧
        ⌊avgFreqAt (items ++ [(n, t)]) freqs o⌋.toNat ≤ ⌊avgFreqAt items freqs o⌋.toNat) ∧
    (∀ (items : List (String × Int)) (freqs extra : List Nat) (o : Nat),
        items.length - o ≤ freqs.length →
        avgFreqAt items (freqs ++ extra) o = avgFreqAt items freqs o) := by
  constructor
  · intro items freqs n t o hpos hlen husage ht havg
    have ho : o < items.length := position_lt_length _ _ _ hpos
    have hdrop : (items ++ [(n, t)]).drop o = items.drop o ++ [(n, t)] :=
      List.drop_append_of_le_length (le_of_lt ho)
    have husage2 : usageFrom (items ++ [(n, t)]) o = usageFrom items o + (t : ℚ) := by
      unfold usageFrom
      rw [hdrop]
      simp
    have hzip : ((items ++ [(n, t)]).drop o).zip freqs = (items.drop o).zip freqs := by
      rw [hdrop]
      exact zip_append_left _ _ _ (by simpa using hlen)
    have havg1 : avgFreqAt items freqs o =
        (((items.drop o).zip freqs).map (fun p => (p.1.2 : ℚ) * (p.2 : ℚ))).sum /
          usageFrom items o := by
      unfold avgFreqAt
      simp only [div_mul_eq_mul_div]
      rw [sum_map_div]
    have havg2 : avgFreqAt (items ++ [(n, t)]) freqs o =
        (((items.drop o).zip freqs).map (fun p => (p.1.2 : ℚ) * (p.2 : ℚ))).sum /
          (usageFrom items o + (t : ℚ)) := by
      unfold avgFreqAt
      simp only [div_mul_eq_mul_div]
      rw [sum_map_div, hzip, husage2]
    have hW : 0 < (((items.drop o).zip freqs).map (fun p => (p.1.2 : ℚ) * (p.2 : ℚ))).sum := by
      have hWeq : (((items.drop o).zip freqs).map (fun p => (p.1.2 : ℚ) * (p.2 : ℚ))).sum =
          avgFreqAt items freqs o * usageFrom items o := by
        rw [havg1]
        field_simp
      rw [hWeq]
      exact mul_pos havg husage
    have htq : (0 : ℚ) < (t : ℚ) := by exact_mod_cast ht
    have hlt : avgFreqAt (items ++ [(n, t)]) freqs o < avgFreqAt items freqs o := by
      rw [havg1, havg2]
      exact div_lt_div_of_pos_left hW husage (by linarith)
    refine ⟨position_append _ _ _ _ hpos, hlt, ?_⟩
    exact Int.toNat_le_toNat (Int.floor_le_floor (le_of_lt hlt))
  · intro items freqs extra o h
    unfold avgFreqAt
    rw [zip_append_right _ _ _ (by simpa using h)]

/-- C10 witness: a concrete instance of each conjunct — appending the
active state ("X", 1) to two fully-weighted states lowers the average;
appending ladder entry 2000 beyond the single state leaves it unchanged. -/
theorem calc_freq_truncation_amended_witness :
    (position activeState ([("P1", 1), ("P2", 1)] ++ [("X", 1)]) = some 0 ∧
      avgFreqAt ([("P1", 1), ("P2", 1)] ++ [("X", 1)]) [1000] 0 <
        avgFreqAt [("P1", 1), ("P2", 1)] [1000] 0 ∧
      ⌊avgFreqAt ([("P1", 1), ("P2", 1)] ++ [("X", 1)]) [1000] 0⌋.toNat ≤
        ⌊avgFreqAt [("P1", 1), ("P2", 1)] [1000] 0⌋.toNat) ∧
    avgFreqAt [("P1", 1)] ([1000] ++ [2000]) 0 = avgFreqAt [("P1", 1)] [1000] 0 :=
  ⟨calc_freq_truncation_amended.1 [("P1", 1), ("P2", 1)] [1000] "X" 1 0
      (by decide) (by decide) (by norm_num [usageFrom])
      (by norm_num) (by norm_num [avgFreqAt, usageFrom]),
   calc_freq_truncation_amended.2 [("P1", 1)] [1000] [2000] 0 (by decide)⟩

/-! ## Claim C6 — temperature aggregation bounds -/

/-- C6 counterexample: membership in the reported CPU average is *not*
exactly "value in (−50, 150)": discovery accepts −10 °C into the sensor
pool (−50 < −10 < 150), but `get_cpu_temperature` re-filters with
(0, 150), so a Tp sensor reading −10 is excluded and the average of
sensors reading −10 and 50 is reported as 50, not (−10 + 50)/2 = 20. -/
theorem temperature_average_filter_counterexample :
    ((-50 : ℚ) < -10 ∧ (-10 : ℚ) < 150) ∧
    get_cpu_temperature
      ⟨[['T', 'p', '0', '1'], ['T', 'p', '0', '2']],
        fun k => if k = ['T', 'p', '0', '1'] then some (-10)
          else if k = ['T', 'p', '0', '2'] then some 50 else none⟩ = .ok 50 ∧
    (50 : ℚ) ≠ (-10 + 50) / 2 := by
  refine ⟨by norm_num, ?_, by norm_num⟩
  have hcpu : cpuTemps
      ⟨[['T', 'p', '0', '1'], ['T', 'p', '0', '2']],
        fun k => if k = ['T', 'p', '0', '1'] then some (-10)
          else if k = ['T', 'p', '0', '2'] then some 50 else none⟩ = [50] := by
    decide
  simp [get_cpu_temperature, hcpu]

/-- C6 amended: a decoded Tp/Te sensor value enters the reported CPU
average exactly when it lies in the open interval (0, 150): discovery
accepts (−50, 150) but the averaging pass re-reads each discovered sensor
and keeps only values in (0, 150), and the reported temperature is the
arithmetic mean of the kept values. -/
theorem temperature_average_filter_amended (keys : List (List Char))
    (value : List Char → Option ℚ) :
    cpuTemps ⟨keys, value⟩ = keys.filterMap (fun k =>
      match value k with
      | some t =>
          if (rustStartsWith k ['T', 'p'] || rustStartsWith k ['T', 'e']) ∧ 0 < t ∧ t < 150
          then some t else none
      | none => none) := by
  unfold cpuTemps discover_temperature_sensors
  rw [filterMap_filter]
  apply List.filterMap_congr
  intro k _
  cases hv : value k with
  | none => simp [hv]
  | some t =>
    simp only [hv]
    cases hTpe : (rustStartsWith k ['T', 'p'] || rustStartsWith k ['T', 'e']) with
    | false =>
      simp [hTpe]
    | true =>
      have hT : rustStartsWith k ['T'] = true := by
        rcases Bool.or_eq_true_iff.mp hTpe with hh | hh
        · exact rustStartsWith_head _ _ _ hh
        · exact rustStartsWith_head _ _ _ hh
      by_cases h0 : (0 : ℚ) < t
      · by_cases h150 : t < 150
        · have hm : (-50 : ℚ) < t := by linarith
          simp [hT, hTpe, hv, hm, h0, h150]
        · simp [hT, hTpe, hv, h150]
      · by_cases h150 : t < 150
        · by_cases hm : (-50 : ℚ) < t
          · simp [hT, hTpe, hv, hm, h0, h150]
          · simp [hT, hTpe, hv, hm, h0]
        · simp [hT, hTpe, hv, h150, h0]

/-! ## Claim C7 — energy is divided by the measured elapsed duration -/

/-- C7: the power derived from a delta sample is a function of the channel
data and the measured elapsed wall-clock duration only — changing the
requested interval while the measured duration stays fixed changes nothing
(first conjunct); the iterator hands back exactly the measured duration
(second conjunct); and on a concrete energy channel the produced watts are
the raw value divided by the measured elapsed seconds and the unit factor
(third conjunct). -/
theorem energy_actual_duration_confirmed :
    (∀ (env : IOReportEnv) (i1 i2 : Nat),
        get_power_metrics_from_sample env i1 = get_power_metrics_from_sample env i2) ∧
    (∀ (env : IOReportEnv) (i : Nat), (sample_power env i).2 = env.elapsed_ms) ∧
    (∀ (raw : Int) (actual i : Nat),
        (get_power_metrics_from_sample
            ⟨[⟨"Energy Model", "GPU Energy", "mJ", raw⟩], actual⟩ i).gpu_power
          = (raw : ℚ) / ((actual : ℚ) / 1000) / 1000) := by
  refine ⟨fun env i1 i2 => rfl, fun env i => rfl, fun raw actual i => ?_⟩
  simp [get_power_metrics_from_sample, sample_power, accumPower, energy_to_watts]

/-! ## Claim C8 — one subscription per Sampler instance -/

/-- C8: `get_sample` never touches the create-subscription counter (first
conjunct, for every sampler and native state), construction performs
exactly one create-subscription call (second conjunct, concrete run from
the initial state), and after two consecutive `get_sample` calls on that
instance the counter still reads 1 and the sampler's subscription and
channel-dictionary fields are the ones created at construction (third
conjunct). -/
theorem subscription_created_once_confirmed :
    (∀ (p : IOReportPerf) (s : NativeState),
        (p.get_sample s).createSubscriptionCalls = s.createSubscriptionCalls) ∧
    (IOReportPerf.new ⟨true, true⟩ NativeState.init
        = (.ok ⟨3, 2⟩, ⟨4, [2, 3], 0, 1⟩)) ∧
    ((IOReportPerf.get_sample ⟨3, 2⟩
        (IOReportPerf.get_sample ⟨3, 2⟩ ⟨4, [2, 3], 0, 1⟩)).createSubscriptionCalls = 1) := by
  refine ⟨?_, rfl, by decide⟩
  intro p s
  simp [IOReportPerf.get_sample, alloc, release, apply_ite NativeState.createSubscriptionCalls]

/-! ## Claim C2 — release-on-every-path (violated on an error path) -/

/-- C2: evaluation of the code at the failing input.  When the two channel
group dictionaries are valid but `IOReportCreateSubscription` returns null,
`IOReportPerf::new` propagates the error while the merged channel
dictionary (handle 2) allocated by `create_channels` is still live: the
early-return error path leaks it, contradicting the release-exactly-once
invariant.  (On the success path the same trace model balances: see the
drop run in the final conjunct, which releases both handles and ends with
no live allocation and no double release.) -/
theorem new_subscription_failure_leak :
    (IOReportPerf.new ⟨true, false⟩ NativeState.init).1
      = .error "Failed to create subscription" ∧
    (IOReportPerf.new ⟨true, false⟩ NativeState.init).2 = ⟨3, [2], 0, 1⟩ ∧
    (IOReportPerf.new ⟨true, false⟩ NativeState.init).2.live ≠ [] ∧
    (IOReportPerf.drop ⟨3, 2⟩
        (IOReportPerf.get_sample ⟨3, 2⟩ ⟨4, [2, 3], 0, 1⟩)
      = ⟨7, [], 0, 1⟩) := by
  refine ⟨rfl, by decide, by decide, by decide⟩

/-! ## Claim C9 — unknown type tags decode to raw bytes -/

/-- C9: for every type tag outside the enumerated decode set, `read_value`'s
decode step returns the raw payload bytes and never fails, whatever the
payload's length or content. -/
theorem read_value_unknown_tag_confirmed (type_str : String) (data : List Nat)
    (h : type_str ∉ enumeratedTags) :
    read_value_decode type_str data = .ok (.bytes data) := by
  simp only [enumeratedTags, List.mem_cons, List.not_mem_nil, or_false, not_or] at h
  obtain ⟨h1, h2, h3, h4, h5, h6, h7, h8, h9, h10, h11, h12, h13, h14, h15, h16,
    h17, h18, h19, h20, h21, h22, h23, h24, h25, h26, h27, h28, h29, h30, h31⟩ := h
  simp [read_value_decode, h1, h2, h3, h4, h5, h6, h7, h8, h9, h10, h11, h12, h13,
    h14, h15, h16, h17, h18, h19, h20, h21, h22, h23, h24, h25, h26, h27, h28, h29,
    h30, h31]

/-- C9 witness: the unknown tag "zzzz" with a 3-byte payload. -/
theorem read_value_unknown_tag_confirmed_witness :
    read_value_decode "zzzz" [1, 2, 3] = .ok (.bytes [1, 2, 3]) :=
  read_value_unknown_tag_confirmed "zzzz" [1, 2, 3] (by decide)

end Atop
